import Mathlib

/-!
Shallow embedding of `src/index.js` of webpack-manifest-plugin: the
file-list derivation pipeline (asset classifier, transform pipeline,
manifest builder) and the per-output-path emission coordinator.

Modelling conventions:
* JavaScript strings are Lean `String`s; per-character operations work on
  `String.data` (`List Char`).
* The process-wide `emitCountMap` is a function `String → Option JSNum`,
  where `none` models an absent key and `JSNum.nan` models the IEEE NaN
  produced by `undefined - 1`.
* JavaScript objects used as string-keyed dictionaries are association
  lists `List (String × String)` in insertion order; assignment to an
  existing key overwrites in place, assignment to a fresh key appends.
* Node's `path.join`/`path.resolve`/`path.relative` are external
  collaborators: `runEmit` takes the join function and the resolved
  output folder/file as parameters; concrete theorems instantiate join
  with plain `folder ++ "/" ++ name` concatenation.
* User-supplied callbacks (`filter`, `map`, `sort`, `generate`,
  `serialize`) are `Option`-valued function slots, as in the options
  object; `sort` is abstracted as the resulting list transformation of
  `Array.prototype.sort` with the user comparator.
-/

/-- A JavaScript number as it can appear in `emitCountMap`: an integer
count, or NaN (the result of `undefined - 1`). -/
inductive JSNum where
  | num : Int → JSNum
  | nan : JSNum
deriving DecidableEq, Repr

/-- The process-wide `emitCountMap`, keyed by resolved output-file path;
`none` models an absent key. -/
def EmitMap : Type := String → Option JSNum

/-- `emitCountMap.set(key, v)`. -/
def setKey (m : EmitMap) (k : String) (v : JSNum) : EmitMap :=
  fun q => if q = k then some v else m q

/-- JavaScript `x || 0` applied to a map lookup: `undefined` and `NaN`
are falsy and give `0`; an integer gives itself (`0 || 0 = 0`). -/
def orZero : Option JSNum → Int
  | some (.num n) => n
  | some .nan => 0
  | none => 0

/-- `beforeRun` (lines 231-239): `emitCountMap.set(outputFile,
(emitCountMap.get(outputFile) || 0) + 1)`. -/
def beforeRun (m : EmitMap) (k : String) : EmitMap :=
  setKey m k (.num (orZero (m k) + 1))

/-- JavaScript `emitCountMap.get(outputFile) - 1`: subtracting from
`undefined` or from NaN yields NaN. -/
def sub1 : Option JSNum → JSNum
  | some (.num n) => .num (n - 1)
  | some .nan => .nan
  | none => .nan

/-- JavaScript `emitCount === 0` (NaN is not `0`). -/
def isZeroNum : JSNum → Bool
  | .num n => n == 0
  | .nan => false

/-- `filepath.replace(/\?.*/, '')` on the character list: everything
from the first `?` up to (excluding) the next line terminator is
removed; `.` does not match line terminators, so the rest survives. -/
def stripQueryL : List Char → List Char
  | [] => []
  | c :: cs =>
    if c = '?' then
      cs.dropWhile (fun d => !(d = '\n' || d = '\r' || d.toNat = 0x2028 || d.toNat = 0x2029))
    else
      c :: stripQueryL cs

/-- `filepath.replace(/\?.*/, '')` on strings. -/
def stripQuery (s : String) : String :=
  ⟨stripQueryL s.data⟩

/-- JavaScript `String.prototype.split` with a one-character separator:
always returns a non-empty list of (possibly empty) segments. -/
def splitCh (sep : Char) : List Char → List (List Char)
  | [] => [[]]
  | c :: cs =>
    match splitCh sep cs with
    | [] => [[]]
    | h :: t => if c = sep then [] :: h :: t else (c :: h) :: t

/-- ASCII lower-casing of one character, as the `/i` regex flag folds
case. -/
def lowerCh (c : Char) : Char :=
  if 65 ≤ c.toNat ∧ c.toNat ≤ 90 then Char.ofNat (c.toNat + 32) else c

/-- The default `transformExtensions` option `/^(gz|map)$/i`: the whole
extension equals `gz` or `map` up to ASCII case. -/
def defaultTransformExtensions (s : String) : Bool :=
  s.data.map lowerCh = "gz".data || s.data.map lowerCh = "map".data

/-- `getFileType` (lines 49-60): strip the query suffix, split on dots,
pop the last segment; when the pass-through pattern matches it, the
result is `<second-to-last> + '.' + <last>`, where popping an empty
array yields `undefined`, which string-concatenates as `"undefined"`. -/
def getFileType (test : String → Bool) (filepath : String) : String :=
  let fp := stripQueryL filepath.data
  let segs := (splitCh '.' fp).map (fun l => (⟨l⟩ : String))
  let extname := segs.getLast?.getD "undefined"
  if test extname then
    (segs.dropLast.getLast?.getD "undefined") ++ "." ++ extname
  else
    extname

/-- A compiled chunk as the classifier reads it: `name` (possibly
absent), the file list, and the engine's initial-chunk flag (the
`isOnlyInitial()/isInitial()/initial` version dispatch collapsed). -/
structure Chunk where
  name : Option String
  files : List String
  chunkInitial : Bool
deriving DecidableEq, Repr

/-- One row of `stats.assets`: the emitted name and the chunks the asset
belongs to. -/
structure Asset where
  name : String
  chunks : List Nat
deriving DecidableEq, Repr

/-- A FileEntry flowing through the pipeline (lines 100-145); chunk
entries carry the originating chunk, asset entries do not. -/
structure FileEntry where
  path : String
  name : String
  isInitial : Bool
  isChunk : Bool
  isAsset : Bool
  isModuleAsset : Bool
  chunk : Option Chunk
deriving DecidableEq, Repr

/-- JavaScript truthiness of a possibly-absent string: `undefined`,
`null` and `''` are falsy. -/
def truthyStr : Option String → Option String
  | some s => if s = "" then none else some s
  | none => none

/-- The body of the chunk-file reduce (lines 87-113): classify one file
of one chunk and append it. -/
def chunkFileStep (test : String → Bool) (chunk : Chunk) (files : List FileEntry)
    (p : String) : List FileEntry :=
  let name :=
    match truthyStr chunk.name with
    | some n => n ++ "." ++ getFileType test p
    | none => p
  files ++ [{ path := p, name := name, isInitial := chunk.chunkInitial,
              isChunk := true, isAsset := false, isModuleAsset := false,
              chunk := some chunk }]

/-- The chunk reduce (lines 86-114): every file of every chunk, in
order, starting from the empty list. -/
def classifyChunks (test : String → Bool) (chunks : List Chunk) : List FileEntry :=
  chunks.foldl (fun files chunk => chunk.files.foldl (chunkFileStep test chunk) files) []

/-- The body of the asset reduce (lines 118-146): a module asset when
the side map has a truthy entry, skipped when the asset belongs to some
chunk, else a plain asset. -/
def assetStep (moduleAssets : String → Option String) (files : List FileEntry)
    (asset : Asset) : List FileEntry :=
  match truthyStr (moduleAssets asset.name) with
  | some n =>
    files ++ [{ path := asset.name, name := n, isInitial := false,
                isChunk := false, isAsset := true, isModuleAsset := true,
                chunk := none }]
  | none =>
    if asset.chunks.length > 0 then
      files
    else
      files ++ [{ path := asset.name, name := asset.name, isInitial := false,
                  isChunk := false, isAsset := true, isModuleAsset := false,
                  chunk := none }]

/-- The asset reduce (lines 118-146), continuing from the chunk-derived
entries. -/
def classifyAssets (moduleAssets : String → Option String) (assets : List Asset)
    (files : List FileEntry) : List FileEntry :=
  assets.foldl (assetStep moduleAssets) files

/-- `sub.isPrefixOf`-based substring search: JavaScript
`s.indexOf(sub) >= 0`. -/
def hasSubstr (sub : List Char) : List Char → Bool
  | [] => sub.isEmpty
  | c :: cs => sub.isPrefixOf (c :: cs) || hasSubstr sub cs

/-- The noise filter (lines 148-155): drop hot-update files and files
whose name, joined onto the output folder, is a key of `emitCountMap`. -/
def noiseFilter (join : String → String → String) (m : EmitMap)
    (outputFolder : String) (files : List FileEntry) : List FileEntry :=
  files.filter (fun f =>
    !(hasSubstr "hot-update".data f.path.data) && (m (join outputFolder f.name)).isNone)

/-- The base-path stage (lines 159-165): when `options.basePath` is
truthy, prepend it to every entry's name. -/
def basePathStage (bp : String) (files : List FileEntry) : List FileEntry :=
  if bp = "" then files else files.map (fun f => { f with name := bp ++ f.name })

/-- The public-path stage (lines 167-176): when the resolved public path
is truthy, prepend it to every entry's path. -/
def publicPathStage (pp : Option String) (files : List FileEntry) : List FileEntry :=
  match truthyStr pp with
  | some p => files.map (fun f => { f with path := p ++ f.path })
  | none => files

/-- `replace(/\\/g, '/')`: every backslash becomes a forward slash. -/
def repSlash (s : String) : String :=
  ⟨s.data.map (fun c => if c = '\\' then '/' else c)⟩

/-- Separator normalization of one entry (lines 179-180). -/
def normEntry (f : FileEntry) : FileEntry :=
  { f with name := repSlash f.name, path := repSlash f.path }

/-- The separator-normalization stage (lines 178-183). -/
def normalizeStage (files : List FileEntry) : List FileEntry :=
  files.map normEntry

/-- JavaScript object assignment `m[k] = v` on an insertion-ordered
dictionary: overwrite in place when the key exists, else append. -/
def objSet (m : List (String × String)) (k v : String) : List (String × String) :=
  match m with
  | [] => [(k, v)]
  | (k₁, v₁) :: rest => if k₁ = k then (k, v) :: rest else (k₁, v₁) :: objSet rest k v

/-- The default manifest builder (lines 202-206): fold the files into
the seed with `manifest[file.name] = file.path`. -/
def buildManifest (seed : List (String × String)) (files : List FileEntry) :
    List (String × String) :=
  files.foldl (fun m f => objSet m f.name f.path) seed

/-- The plugin options after the constructor's defaulting merge (lines
24-41); the function-valued slots hold the user callbacks, `none` when
unset. `sortWith` abstracts `Array.prototype.sort` with the user
comparator as the resulting reordering. -/
structure Options where
  publicPath : Option String := none
  basePath : String := ""
  fileName : String := "manifest.json"
  transformExtensions : String → Bool := defaultTransformExtensions
  writeToFileEmit : Bool := false
  seed : Option (List (String × String)) := none
  filterFn : Option (FileEntry → Bool) := none
  mapFn : Option (FileEntry → FileEntry) := none
  generate : Option (List (String × String) → List FileEntry → List (String × String)) := none
  sortWith : Option (List FileEntry → List FileEntry) := none

/-- The data `emit` reads from the compilation: chunks, `stats.assets`,
and the engine's `output.publicPath`. -/
structure Compilation where
  chunks : List Chunk
  assets : List Asset
  publicPath : Option String

/-- Line 83: `options.publicPath != null ? options.publicPath :
compilation.options.output.publicPath`. -/
def resolvedPublicPath (opts : Options) (comp : Compilation) : Option String :=
  match opts.publicPath with
  | some p => some p
  | none => comp.publicPath

/-- Line 82: `options.seed || {}` (an object is truthy, so only an
unset seed becomes the empty mapping). -/
def seedOf (opts : Options) : List (String × String) :=
  opts.seed.getD []

/-- Lines 197-207: the manifest from the user generator when
configured, else the default fold. -/
def manifestOf (opts : Options) (seed : List (String × String))
    (files : List FileEntry) : List (String × String) :=
  match opts.generate with
  | some g => g seed files
  | none => buildManifest seed files

/-- What one `emit` call produces: the updated `emitCountMap`, the
post-pipeline file list, the manifest, whether this call inserted the
serialized manifest into `compilation.assets` (`emitted`), and whether
it also wrote the file to disk (`wroteFile`). -/
structure EmitResult where
  state : EmitMap
  files : List FileEntry
  manifest : List (String × String)
  emitted : Bool
  wroteFile : Bool

/-- The `emit` handler (lines 77-229) as a function of the inputs it
reads: the join collaborator, the resolved output folder and file, the
options, the module-asset side map, the compilation data, and the
current `emitCountMap`. -/
def runEmit (join : String → String → String) (outputFolder outputFile : String)
    (opts : Options) (moduleAssets : String → Option String)
    (comp : Compilation) (m : EmitMap) : EmitResult :=
  let emitCount := sub1 (m outputFile)
  let m₁ := setKey m outputFile emitCount
  let seed := seedOf opts
  let publicPath := resolvedPublicPath opts comp
  let files₁ := classifyChunks opts.transformExtensions comp.chunks
  let files₂ := classifyAssets moduleAssets comp.assets files₁
  let files₃ := noiseFilter join m₁ outputFolder files₂
  let files₄ := basePathStage opts.basePath files₃
  let files₅ := publicPathStage publicPath files₄
  let files₆ := normalizeStage files₅
  let files₇ := match opts.filterFn with | some p => files₆.filter p | none => files₆
  let files₈ := match opts.mapFn with | some g => files₇.map g | none => files₇
  let files₉ := match opts.sortWith with | some s => s files₈ | none => files₈
  let manifest := manifestOf opts seed files₉
  let isLastEmit := isZeroNum emitCount
  { state := m₁, files := files₉, manifest := manifest,
    emitted := isLastEmit, wroteFile := isLastEmit && opts.writeToFileEmit }

/-- Node `path.join` restricted to an absolute folder and a plain
relative name, as the concrete instantiation of the join collaborator. -/
def joinP (folder name : String) : String :=
  folder ++ "/" ++ name

/-! ### Helper lemmas -/

theorem lookup_objSet (m : List (String × String)) (q k v : String) :
    List.lookup q (objSet m k v) = if q = k then some v else List.lookup q m := by
  induction m with
  | nil =>
    by_cases h : q = k
    · simp [objSet, List.lookup, h]
    · have hb : (q == k) = false := beq_eq_false_iff_ne.mpr h
      simp [objSet, List.lookup, hb, h]
  | cons p rest ih =>
    obtain ⟨k₁, v₁⟩ := p
    by_cases h₁ : k₁ = k
    · subst h₁
      by_cases h : q = k₁
      · simp [objSet, List.lookup, h]
      · have hb : (q == k₁) = false := beq_eq_false_iff_ne.mpr h
        simp [objSet, List.lookup, hb, h]
    · by_cases h : q = k₁
      · subst h
        have hk : ¬q = k := h₁
        simp [objSet, h₁, List.lookup, hk]
      · have hb : (q == k₁) = false := beq_eq_false_iff_ne.mpr h
        simp [objSet, h₁, List.lookup, hb, ih]

theorem buildManifest_cons (seed : List (String × String)) (f : FileEntry)
    (fs : List FileEntry) :
    buildManifest seed (f :: fs) = buildManifest (objSet seed f.name f.path) fs := rfl

theorem lookup_buildManifest (seed : List (String × String)) (files : List FileEntry)
    (k : String) :
    List.lookup k (buildManifest seed files) =
      match files.reverse.find? (fun f => f.name == k) with
      | some f => some f.path
      | none => List.lookup k seed := by
  induction files generalizing seed with
  | nil => simp [buildManifest]
  | cons f fs ih =>
    rw [buildManifest_cons, ih]
    have hrev : (f :: fs).reverse = fs.reverse ++ [f] := by simp
    rw [hrev, List.find?_append]
    cases hfind : fs.reverse.find? (fun g => g.name == k) with
    | some g => simp
    | none =>
      simp only [Option.none_or]
      cases hf : (f.name == k) with
      | true =>
        have hk : k = f.name := (beq_iff_eq.mp hf).symm
        simp [List.find?_cons, hf, lookup_objSet, hk]
      | false =>
        have hk : ¬(k = f.name) := fun h => by
          simp [beq_iff_eq.mpr h.symm] at hf
        simp [List.find?_cons, hf, lookup_objSet, hk]

theorem splitCh_no_sep (sep : Char) (cs : List Char) (h : sep ∉ cs) :
    splitCh sep cs = [cs] := by
  induction cs with
  | nil => rfl
  | cons c rest ih =>
    have hc : ¬c = sep := fun he => h (he ▸ List.mem_cons_self c rest)
    have hr : sep ∉ rest := fun hm => h (List.mem_cons_of_mem c hm)
    simp [splitCh, ih hr, hc]

theorem mem_assetStep (mA : String → Option String) (files : List FileEntry)
    (a : Asset) (f : FileEntry) (h : f ∈ assetStep mA files a) :
    f ∈ files ∨ (f.isChunk = false ∧ f.isAsset = true) := by
  unfold assetStep at h
  cases htr : truthyStr (mA a.name) with
  | some n =>
    rw [htr] at h
    rcases List.mem_append.mp h with h₁ | h₂
    · exact Or.inl h₁
    · right
      simp at h₂
      simp [h₂]
  | none =>
    rw [htr] at h
    by_cases hc : a.chunks.length > 0
    · rw [if_pos hc] at h
      exact Or.inl h
    · rw [if_neg hc] at h
      rcases List.mem_append.mp h with h₁ | h₂
      · exact Or.inl h₁
      · right
        simp at h₂
        simp [h₂]

theorem mem_classifyAssets (mA : String → Option String) (assets : List Asset)
    (files : List FileEntry) (f : FileEntry) (h : f ∈ classifyAssets mA assets files) :
    f ∈ files ∨ (f.isChunk = false ∧ f.isAsset = true) := by
  induction assets generalizing files with
  | nil => exact Or.inl h
  | cons a rest ih =>
    rcases ih (assetStep mA files a) h with h₁ | h₂
    · exact mem_assetStep mA files a f h₁
    · exact Or.inr h₂

theorem mem_chunkFilesFold (test : String → Bool) (c : Chunk) (ps : List String)
    (files : List FileEntry) (f : FileEntry) (h : f ∈ ps.foldl (chunkFileStep test c) files) :
    f ∈ files ∨ (f.isChunk = true ∧ f.isAsset = false ∧ f.isModuleAsset = false) := by
  induction ps generalizing files with
  | nil => exact Or.inl h
  | cons p rest ih =>
    rcases ih (chunkFileStep test c files p) h with h₁ | h₂
    · unfold chunkFileStep at h₁
      rcases List.mem_append.mp h₁ with h₃ | h₄
      · exact Or.inl h₃
      · right
        simp at h₄
        simp [h₄]
    · exact Or.inr h₂

theorem mem_chunksFold (test : String → Bool) (chunks : List Chunk)
    (files₀ : List FileEntry) (f : FileEntry)
    (h : f ∈ chunks.foldl (fun files chunk => chunk.files.foldl (chunkFileStep test chunk) files) files₀) :
    f ∈ files₀ ∨ (f.isChunk = true ∧ f.isAsset = false ∧ f.isModuleAsset = false) := by
  induction chunks generalizing files₀ with
  | nil => exact Or.inl h
  | cons c rest ih =>
    rcases ih (c.files.foldl (chunkFileStep test c) files₀) h with h₁ | h₂
    · exact mem_chunkFilesFold test c c.files files₀ f h₁
    · exact Or.inr h₂

theorem mem_classifyChunks (test : String → Bool) (chunks : List Chunk) (f : FileEntry)
    (h : f ∈ classifyChunks test chunks) :
    f.isChunk = true ∧ f.isAsset = false ∧ f.isModuleAsset = false := by
  unfold classifyChunks at h
  rcases mem_chunksFold test chunks [] f h with h₁ | h₂
  · simp at h₁
  · exact h₂

theorem repSlash_idem (s : String) : repSlash (repSlash s) = repSlash s := by
  unfold repSlash
  apply congrArg String.mk
  rw [List.map_map]
  apply List.map_congr_left
  intro c _
  by_cases h : c = '\\' <;> simp [h]

theorem normEntry_idem (f : FileEntry) : normEntry (normEntry f) = normEntry f := by
  simp [normEntry, repSlash_idem]

/-! ### Claim theorems -/

/-- C3: for every chunk-file path, the derived file type is the query-stripped
path's final dot-segment, except that when that segment matches the
pass-through pattern the type is the second-to-last segment, a dot, and the
matched segment; concretely `bundle.js.map ↦ js.map`, `style.css ↦ css`,
`data.json?v=2 ↦ json`. -/
theorem chunk_file_type_derivation (test : String → Bool) (p : String)
    (rest : List (List Char)) (e : List Char)
    (hsplit : splitCh '.' (stripQueryL p.data) = rest ++ [e]) :
    (test ⟨e⟩ = false → getFileType test p = ⟨e⟩) ∧
    (test ⟨e⟩ = true → ∀ (rest₂ : List (List Char)) (r : List Char),
      rest = rest₂ ++ [r] →
      getFileType test p = (⟨r⟩ : String) ++ "." ++ (⟨e⟩ : String)) ∧
    getFileType defaultTransformExtensions "bundle.js.map" = "js.map" ∧
    getFileType defaultTransformExtensions "style.css" = "css" ∧
    getFileType defaultTransformExtensions "data.json?v=2" = "json" := by
  refine ⟨?_, ?_, by decide, by decide, by decide⟩
  · intro ht
    simp only [getFileType]
    rw [hsplit]
    simp [List.getLast?_concat, ht]
  · intro ht rest₂ r hr
    simp only [getFileType]
    rw [hsplit, hr]
    simp [List.getLast?_concat, List.dropLast_concat, ht]

/-- Witness for C3 at the concrete path `app.css`. -/
theorem chunk_file_type_derivation_witness :
    splitCh '.' (stripQueryL "app.css".data) = [['a', 'p', 'p']] ++ [['c', 's', 's']] ∧
    getFileType defaultTransformExtensions "app.css" = ⟨['c', 's', 's']⟩ := by
  have h := chunk_file_type_derivation defaultTransformExtensions "app.css"
    [['a', 'p', 'p']] ['c', 's', 's'] (by decide)
  exact ⟨by decide, h.1 (by decide)⟩

/-- C10: `getFileType` is total (it is a plain function below); on a
query-stripped path with no dot it returns the whole stripped path when the
pass-through pattern does not match it, and when the single segment itself
matches the pattern there is no second-to-last segment and the result is the
literal `undefined.<segment>` (for the path `map`: `undefined.map`). -/
theorem file_type_no_dot (p : String) (hnd : '.' ∉ stripQueryL p.data) :
    (defaultTransformExtensions (stripQuery p) = false →
      getFileType defaultTransformExtensions p = stripQuery p) ∧
    (defaultTransformExtensions (stripQuery p) = true →
      getFileType defaultTransformExtensions p = "undefined" ++ "." ++ stripQuery p) ∧
    getFileType defaultTransformExtensions "map" = "undefined.map" := by
  have hs : splitCh '.' (stripQueryL p.data) = [stripQueryL p.data] :=
    splitCh_no_sep '.' _ hnd
  refine ⟨?_, ?_, by decide⟩
  · intro ht
    simp only [getFileType]
    rw [hs]
    unfold stripQuery at ht
    simp [ht, stripQuery]
  · intro ht
    simp only [getFileType]
    rw [hs]
    unfold stripQuery at ht
    simp [ht, stripQuery]

/-- Witness for C10 at the concrete paths `noext` and `gz`. -/
theorem file_type_no_dot_witness :
    ('.' ∉ stripQueryL "noext".data) ∧
    getFileType defaultTransformExtensions "noext" = stripQuery "noext" ∧
    getFileType defaultTransformExtensions "gz" = "undefined" ++ "." ++ stripQuery "gz" := by
  refine ⟨by decide, (file_type_no_dot "noext" (by decide)).1 (by decide), ?_⟩
  exact (file_type_no_dot "gz" (by decide)).2.1 (by decide)

/-- C4: with no generator configured the manifest is the seed (empty when
the seed option is unset) folded with `manifest[file.name] = file.path` in
order; for every key the resulting value is the path of the last file with
that name, falling back to the seed's value for keys named by no file. -/
theorem default_manifest_build :
    (∀ (opts : Options) (seed : List (String × String)) (files : List FileEntry),
      opts.generate = none → manifestOf opts seed files = buildManifest seed files) ∧
    (∀ opts : Options, opts.seed = none → seedOf opts = []) ∧
    (∀ (seed : List (String × String)) (files : List FileEntry) (k : String),
      List.lookup k (buildManifest seed files) =
        match files.reverse.find? (fun f => f.name == k) with
        | some f => some f.path
        | none => List.lookup k seed) := by
  refine ⟨?_, ?_, lookup_buildManifest⟩
  · intro opts seed files hg
    unfold manifestOf
    rw [hg]
  · intro opts hs
    unfold seedOf
    rw [hs]
    rfl

/-- Witness for C4: two files both named `app.js`; the manifest holds the
path of the last one. -/
theorem default_manifest_build_witness :
    List.lookup "app.js"
        (buildManifest [] [⟨"app.1.js", "app.js", true, true, false, false, none⟩,
                           ⟨"app.2.js", "app.js", false, false, true, false, none⟩]) =
      some "app.2.js" := by
  rw [default_manifest_build.2.2 []
    [⟨"app.1.js", "app.js", true, true, false, false, none⟩,
     ⟨"app.2.js", "app.js", false, false, true, false, none⟩] "app.js"]
  decide

/-- C2 counterexample: a module asset (path `logo.png` mapped to
`img/logo.png` in the side map) is emitted with `isAsset = true`, not
`false` as the claim states. -/
theorem module_asset_flag_counterexample :
    ¬ (∀ f ∈ classifyAssets (fun s => if s = "logo.png" then some "img/logo.png" else none)
          [⟨"logo.png", []⟩] [],
        f.isModuleAsset = true → f.isAsset = false) := by
  decide

/-- C2 (amended): a module asset is emitted with `name` the mapped logical
name, `isModuleAsset = true` and `isAsset = true` (both asset flags set,
`isChunk = false`); origin classification is still unambiguous because every
classifier output is either a chunk entry (`isChunk` with both asset flags
unset) or an asset entry (`isAsset` with `isChunk` unset), inside which
`isModuleAsset` separates module assets from plain assets. -/
theorem module_asset_entry (mA : String → Option String) (files : List FileEntry)
    (a : Asset) (n : String) (h : truthyStr (mA a.name) = some n) :
    (assetStep mA files a =
      files ++ [{ path := a.name, name := n, isInitial := false, isChunk := false,
                  isAsset := true, isModuleAsset := true, chunk := none }]) ∧
    (∀ (test : String → Bool) (chunks : List Chunk) (assets : List Asset) (f : FileEntry),
      f ∈ classifyAssets mA assets (classifyChunks test chunks) →
      (f.isChunk = true ∧ f.isAsset = false ∧ f.isModuleAsset = false) ∨
      (f.isChunk = false ∧ f.isAsset = true)) := by
  constructor
  · unfold assetStep
    rw [h]
  · intro test chunks assets f hf
    rcases mem_classifyAssets mA assets (classifyChunks test chunks) f hf with h₁ | h₂
    · exact Or.inl (mem_classifyChunks test chunks f h₁)
    · exact Or.inr h₂

/-- Witness for C2 (amended) at a concrete module asset. -/
theorem module_asset_entry_witness :
    truthyStr ((fun s => if s = "logo.png" then some "img/logo.png" else none) "logo.png") =
      some "img/logo.png" ∧
    assetStep (fun s => if s = "logo.png" then some "img/logo.png" else none) [] ⟨"logo.png", []⟩ =
      [{ path := "logo.png", name := "img/logo.png", isInitial := false, isChunk := false,
         isAsset := true, isModuleAsset := true, chunk := none }] := by
  refine ⟨by decide, ?_⟩
  have h := (module_asset_entry
    (fun s => if s = "logo.png" then some "img/logo.png" else none) [] ⟨"logo.png", []⟩
    "img/logo.png" (by decide)).1
  simpa using h

/-- The emit-count map after cycle-start ×2 for the output path
`/o/manifest.json`, starting from the empty map. -/
def coordScenarioMap : EmitMap :=
  beforeRun (beforeRun (fun _ => none) "/o/manifest.json") "/o/manifest.json"

/-- An options object with direct file writing enabled. -/
def coordOpts : Options := { writeToFileEmit := true }

/-- First cycle-emit of the last-cycle-wins scenario. -/
def coordEmit1 : EmitResult :=
  runEmit joinP "/o" "/o/manifest.json" coordOpts (fun _ => none) ⟨[], [], none⟩ coordScenarioMap

/-- Second cycle-emit of the last-cycle-wins scenario. -/
def coordEmit2 : EmitResult :=
  runEmit joinP "/o" "/o/manifest.json" coordOpts (fun _ => none) ⟨[], [], none⟩ coordEmit1.state

/-- C1: cycle-start increments the counter of its output-file identity and
cycle-emit decrements it; the manifest lands in the assets collection
exactly when the post-decrement counter is 0, and reaches disk exactly then
with `writeToFileEmit` set. After cycle-start ×2 then cycle-emit ×2 on one
path, the first emit writes nothing, the second writes once, and the counter
ends at 0. -/
theorem last_cycle_wins_emission (join : String → String → String)
    (folder k : String) (opts : Options) (mA : String → Option String)
    (comp : Compilation) (m : EmitMap) (n : Int) (h : m k = some (.num n)) :
    ((beforeRun m k) k = some (.num (n + 1))) ∧
    (∀ m₂ : EmitMap, m₂ k = none → (beforeRun m₂ k) k = some (.num 1)) ∧
    ((runEmit join folder k opts mA comp m).state k = some (.num (n - 1))) ∧
    ((runEmit join folder k opts mA comp m).emitted = true ↔ n - 1 = 0) ∧
    ((runEmit join folder k opts mA comp m).wroteFile = true ↔
      (n - 1 = 0 ∧ opts.writeToFileEmit = true)) ∧
    (coordEmit1.emitted = false ∧ coordEmit1.wroteFile = false ∧
     coordEmit2.emitted = true ∧ coordEmit2.wroteFile = true ∧
     coordEmit2.state "/o/manifest.json" = some (.num 0)) := by
  refine ⟨?_, ?_, ?_, ?_, ?_, by decide, by decide, by decide, by decide, by decide⟩
  · simp [beforeRun, setKey, orZero, h]
  · intro m₂ h₂
    simp [beforeRun, setKey, orZero, h₂]
  · simp [runEmit, setKey, sub1, h]
  · simp [runEmit, sub1, h, isZeroNum]
  · simp [runEmit, sub1, h, isZeroNum, and_comm]

/-- Witness for C1 at a concrete map holding counter 5. -/
theorem last_cycle_wins_emission_witness :
    (fun q => if q = "/w/manifest.json" then some (JSNum.num 5) else none :
      EmitMap) "/w/manifest.json" = some (.num 5) ∧
    (beforeRun (fun q => if q = "/w/manifest.json" then some (JSNum.num 5) else none)
      "/w/manifest.json") "/w/manifest.json" = some (.num (5 + 1)) := by
  have h := last_cycle_wins_emission joinP "/w" "/w/manifest.json" {} (fun _ => none)
    ⟨[], [], none⟩ (fun q => if q = "/w/manifest.json" then some (JSNum.num 5) else none)
    5 (by decide)
  exact ⟨by decide, h.1⟩

/-- C8: a cycle-emit without a matching cycle-start drives the counter below
zero (or to NaN when the key is absent); the operation is total and performs
no authoritative serialization or write, since only an exact post-decrement
of zero triggers it. -/
theorem emit_below_zero_counter (join : String → String → String) (folder k : String)
    (opts : Options) (mA : String → Option String) (comp : Compilation)
    (m : EmitMap) (n : Int) (h : m k = some (.num n)) (hn : n ≤ 0) :
    (runEmit join folder k opts mA comp m).emitted = false ∧
    (runEmit join folder k opts mA comp m).wroteFile = false ∧
    (runEmit join folder k opts mA comp m).state k = some (.num (n - 1)) ∧
    (∀ m₂ : EmitMap, m₂ k = none →
      (runEmit join folder k opts mA comp m₂).emitted = false ∧
      (runEmit join folder k opts mA comp m₂).state k = some JSNum.nan) := by
  have hz : ((n - 1 : Int) == 0) = false := by
    rw [beq_eq_false_iff_ne]
    omega
  refine ⟨?_, ?_, ?_, ?_⟩
  · simp [runEmit, sub1, h, isZeroNum, hz]
  · simp [runEmit, sub1, h, isZeroNum, hz]
  · simp [runEmit, setKey, sub1, h]
  · intro m₂ h₂
    constructor
    · simp [runEmit, sub1, h₂, isZeroNum]
    · simp [runEmit, setKey, sub1, h₂]

/-- Witness for C8: emit on a counter already at 0 (one more emit than
start); no write happens and the counter goes to -1. -/
theorem emit_below_zero_counter_witness :
    (fun q => if q = "/w2/manifest.json" then some (JSNum.num 0) else none :
      EmitMap) "/w2/manifest.json" = some (.num 0) ∧ (0 : Int) ≤ 0 ∧
    (runEmit joinP "/w2" "/w2/manifest.json" {} (fun _ => none) ⟨[], [], none⟩
      (fun q => if q = "/w2/manifest.json" then some (JSNum.num 0) else none)).emitted = false ∧
    (runEmit joinP "/w2" "/w2/manifest.json" {} (fun _ => none) ⟨[], [], none⟩
      (fun q => if q = "/w2/manifest.json" then some (JSNum.num 0) else none)).state
        "/w2/manifest.json" = some (.num (0 - 1)) := by
  have h := emit_below_zero_counter joinP "/w2" "/w2/manifest.json" {} (fun _ => none)
    ⟨[], [], none⟩ (fun q => if q = "/w2/manifest.json" then some (JSNum.num 0) else none)
    0 (by decide) (by norm_num)
  exact ⟨by decide, by norm_num, h.1, h.2.2.1⟩

/-- An emit-count map tracking the manifest output `/dist/manifest.json`. -/
def trackedMap : EmitMap :=
  fun q => if q = "/dist/manifest.json" then some (.num 1) else none

/-- An entry resolving to this instance's own manifest output path. -/
def selfEntry : FileEntry :=
  ⟨"manifest.json", "manifest.json", false, false, true, false, none⟩

/-- An ordinary entry that passes the noise filter. -/
def plainEntry : FileEntry :=
  ⟨"app.js", "app.js", false, true, false, false, none⟩

/-- A hot-update entry. -/
def hotEntry : FileEntry :=
  ⟨"main.0abc.hot-update.js", "main.js", false, true, false, false, none⟩

/-- C5: the noise filter keeps exactly the entries whose path does not
contain `hot-update` and whose name, joined onto the output folder, has no
registered emit counter; in particular an entry resolving to this
instance's own manifest output path is dropped. -/
theorem noise_filter_drops (join : String → String → String) (m : EmitMap)
    (folder : String) (files : List FileEntry) (f : FileEntry) :
    (f ∈ noiseFilter join m folder files ↔
      f ∈ files ∧ hasSubstr "hot-update".data f.path.data = false ∧
        m (join folder f.name) = none) ∧
    noiseFilter joinP trackedMap "/dist" [selfEntry, plainEntry, hotEntry] = [plainEntry] := by
  refine ⟨?_, by decide⟩
  rw [noiseFilter, List.mem_filter]
  simp [Option.isNone_iff_eq_none, and_assoc]

/-- Sample entry for the frame theorems about the prefix stages. -/
def sampleEntry : FileEntry :=
  ⟨"js\\app.js", "app.js", true, true, false, false, none⟩

/-- C7: with a base path configured the base-path stage prepends it to every
entry's name only, with a truthy public path (the option, or the engine's
setting when the option is unset) the public-path stage prepends it to every
entry's path only, and neither stage changes any other field. -/
theorem path_stages_frame (bp p : String) (files : List FileEntry)
    (opts : Options) (comp : Compilation) (hbp : bp ≠ "") (hp : p ≠ "") :
    (basePathStage bp files = files.map (fun f =>
      { path := f.path, name := bp ++ f.name, isInitial := f.isInitial,
        isChunk := f.isChunk, isAsset := f.isAsset,
        isModuleAsset := f.isModuleAsset, chunk := f.chunk })) ∧
    (publicPathStage (some p) files = files.map (fun f =>
      { path := p ++ f.path, name := f.name, isInitial := f.isInitial,
        isChunk := f.isChunk, isAsset := f.isAsset,
        isModuleAsset := f.isModuleAsset, chunk := f.chunk })) ∧
    (opts.publicPath = some p → resolvedPublicPath opts comp = some p) ∧
    (opts.publicPath = none → resolvedPublicPath opts comp = comp.publicPath) := by
  refine ⟨?_, ?_, ?_, ?_⟩
  · rw [basePathStage, if_neg hbp]
  · rw [publicPathStage]
    simp [truthyStr, hp]
  · intro h
    rw [resolvedPublicPath, h]
  · intro h
    rw [resolvedPublicPath, h]

/-- Witness for C7 at concrete prefixes and one concrete entry. -/
theorem path_stages_frame_witness :
    ("static/" : String) ≠ "" ∧ ("/cdn/" : String) ≠ "" ∧
    basePathStage "static/" [sampleEntry] =
      [⟨"js\\app.js", "static/app.js", true, true, false, false, none⟩] ∧
    publicPathStage (some "/cdn/") [sampleEntry] =
      [⟨"/cdn/js\\app.js", "app.js", true, true, false, false, none⟩] := by
  have h := path_stages_frame "static/" "/cdn/" [sampleEntry] {} ⟨[], [], none⟩
    (by decide) (by decide)
  exact ⟨by decide, by decide, h.1.trans (by decide), h.2.1.trans (by decide)⟩

/-- C9: the separator-normalization stage rewrites each entry's name and
path character-wise, sending every backslash to a forward slash and leaving
every other character (and every other field) in place, so no backslash
survives; the stage is idempotent. -/
theorem separator_normalization (files : List FileEntry) (s : String) :
    (normalizeStage files = files.map (fun f =>
      { path := repSlash f.path, name := repSlash f.name, isInitial := f.isInitial,
        isChunk := f.isChunk, isAsset := f.isAsset,
        isModuleAsset := f.isModuleAsset, chunk := f.chunk })) ∧
    ((repSlash s).data.length = s.data.length) ∧
    (∀ (i : Nat) (c : Char), s.data[i]? = some c →
      (repSlash s).data[i]? = some (if c = '\\' then '/' else c)) ∧
    ('\\' ∉ (repSlash s).data) ∧
    (repSlash (repSlash s) = repSlash s) ∧
    (normalizeStage (normalizeStage files) = normalizeStage files) := by
  refine ⟨rfl, by simp [repSlash], ?_, ?_, repSlash_idem s, ?_⟩
  · intro i c hc
    rw [repSlash]
    show (s.data.map fun c => if c = '\\' then '/' else c)[i]? = _
    rw [List.getElem?_map, hc]
    rfl
  · rw [repSlash]
    show '\\' ∉ s.data.map fun c => if c = '\\' then '/' else c
    simp only [List.mem_map, not_exists]
    rintro a ⟨_, ha⟩
    by_cases h : a = '\\' <;> simp [h] at ha
  · rw [normalizeStage, normalizeStage, List.map_map]
    exact List.map_congr_left (fun f _ => normEntry_idem f)

/-- Witness for C9 at a concrete backslash path. -/
theorem separator_normalization_witness :
    ("a\\b".data)[1]? = some '\\' ∧
    (repSlash "a\\b").data[1]? = some (if '\\' = '\\' then '/' else '\\') := by
  exact ⟨by decide, (separator_normalization [] "a\\b").2.2.1 1 '\\' (by decide)⟩

/-- The named chunk `main` producing `main.js` and `main.js.map`. -/
def mainChunk : Chunk :=
  { name := some "main", files := ["main.js", "main.js.map"], chunkInitial := true }

/-- The compilation of the end-to-end scenario: the `main` chunk, its two
files listed among the emitted assets with chunk membership, and the plain
asset `favicon.ico` belonging to no chunk. -/
def endToEndComp : Compilation :=
  { chunks := [mainChunk],
    assets := [⟨"main.js", [0]⟩, ⟨"main.js.map", [0]⟩, ⟨"favicon.ico", []⟩],
    publicPath := none }

/-- The emit-count map after the single cycle-start of the scenario. -/
def endToEndMap : EmitMap :=
  beforeRun (fun _ => none) "/dist/manifest.json"

/-- C6: with default options, one named chunk `main` with files `main.js`
and `main.js.map` plus the chunkless asset `favicon.ico` produce the
manifest mapping `main.js ↦ main.js`, `main.js.map ↦ main.js.map`,
`favicon.ico ↦ favicon.ico`, and this cycle is the authoritative emission. -/
theorem end_to_end_default_manifest :
    (runEmit joinP "/dist" "/dist/manifest.json" {} (fun _ => none) endToEndComp
        endToEndMap).manifest =
      [("main.js", "main.js"), ("main.js.map", "main.js.map"),
       ("favicon.ico", "favicon.ico")] ∧
    (runEmit joinP "/dist" "/dist/manifest.json" {} (fun _ => none) endToEndComp
        endToEndMap).emitted = true := by
  constructor <;> decide
